import Mathlib

/-!
Shallow embedding of the data pipeline of `src/app.py` (a Streamlit dashboard
merging an ETA-accuracy table with a data-coverage table).

Tables are lists of records.  Scalar CSV cells that pandas would read as
`float` (possibly `NaN`) are embedded as `Option ℚ`, with `none` standing for
a missing value (`NaN`); string key columns are total `String`s.
-/

namespace ETA

/-- One row of `accuracy_detailed_literal.csv` (`df_accuracy`). -/
structure AccuracyRecord where
  routeID : String
  timePeriod : String
  timeBucket : String
  accurate_pct : Option ℚ
  early_pct : Option ℚ
  late_pct : Option ℚ
  totalPredictions : Option ℚ
  deriving Repr, DecidableEq

/-- One row of `coverage_with_bands.csv` (`df_coverage`).  The join key column
is named `route`; `load_data` renames it to `routeID` before the merge. -/
structure CoverageRecord where
  route : String
  timePeriod : String
  fractionTrackedExplained : Option ℚ
  fractionOnFullyMissingTrips : Option ℚ
  deriving Repr, DecidableEq

/-- One row of `df_merged`: all accuracy columns plus the two projected
coverage columns attached by the left merge. -/
structure MergedRecord where
  routeID : String
  timePeriod : String
  timeBucket : String
  accurate_pct : Option ℚ
  early_pct : Option ℚ
  late_pct : Option ℚ
  totalPredictions : Option ℚ
  fractionTrackedExplained : Option ℚ
  fractionOnFullyMissingTrips : Option ℚ
  deriving Repr, DecidableEq

/-- The two sidebar multiselect values (`selected_periods`, `selected_routes`). -/
structure FilterSelection where
  periods : List String
  routes : List String
  deriving Repr, DecidableEq

/-- The coverage rows carrying a given (routeID, timePeriod) key, after the
rename of `route` to `routeID` (the `pd.merge` key lookup, right side kept in
source order). -/
def covKeyMatches (routeID timePeriod : String) (cov : List CoverageRecord) :
    List CoverageRecord :=
  cov.filter (fun c => c.route == routeID && c.timePeriod == timePeriod)

/-- The coverage rows matching one accuracy row's (routeID, timePeriod) key. -/
def covMatches (a : AccuracyRecord) (cov : List CoverageRecord) : List CoverageRecord :=
  covKeyMatches a.routeID a.timePeriod cov

/-- Attach the projected coverage columns of `c` (or missing values when there
is no match) to an accuracy row, as `pd.merge(..., how='left')` builds its
output rows. -/
def joinRow (a : AccuracyRecord) (c : Option CoverageRecord) : MergedRecord :=
  { routeID := a.routeID
    timePeriod := a.timePeriod
    timeBucket := a.timeBucket
    accurate_pct := a.accurate_pct
    early_pct := a.early_pct
    late_pct := a.late_pct
    totalPredictions := a.totalPredictions
    fractionTrackedExplained := c.bind (·.fractionTrackedExplained)
    fractionOnFullyMissingTrips := c.bind (·.fractionOnFullyMissingTrips) }

/-- Output rows that one left (accuracy) row contributes to the left merge:
one row per matching coverage row, or a single row with missing coverage
fields when there is no match. -/
def mergeOne (a : AccuracyRecord) (cov : List CoverageRecord) : List MergedRecord :=
  match covMatches a cov with
  | [] => [joinRow a none]
  | ms => ms.map (fun c => joinRow a (some c))

/-- Embeds `pd.merge(df_accuracy, df_coverage_renamed[cols],
on=['routeID','timePeriod'], how='left')`: left rows in order, each replaced
by its `mergeOne` block. -/
def pdMerge : List AccuracyRecord → List CoverageRecord → List MergedRecord
  | [], _ => []
  | a :: as, cov => mergeOne a cov ++ pdMerge as cov

/-- Embeds `df_merged['fractionTrackedExplained'].fillna(-1)`: replace a missing
coverage fraction by the sentinel `-1`, on one row. -/
def fillSentinel (r : MergedRecord) : MergedRecord :=
  { r with fractionTrackedExplained := some (r.fractionTrackedExplained.getD (-1)) }

/-- The merged table returned by `load_data`: left merge then sentinel fill. -/
def load_data (acc : List AccuracyRecord) (cov : List CoverageRecord) : List MergedRecord :=
  (pdMerge acc cov).map fillSentinel

/-- Embeds `df_corr_analysis = df_merged[df_merged['fractionTrackedExplained'] != -1]`. -/
def df_corr_analysis (acc : List AccuracyRecord) (cov : List CoverageRecord) :
    List MergedRecord :=
  (load_data acc cov).filter (fun r => decide (r.fractionTrackedExplained ≠ some (-1)))

/-- Row predicate of the two `.isin` masks applied to the merged/corr table. -/
def selMatchesM (sel : FilterSelection) (r : MergedRecord) : Bool :=
  sel.periods.contains r.timePeriod && sel.routes.contains r.routeID

/-- Row predicate of the two `.isin` masks applied to the accuracy table. -/
def selMatchesA (sel : FilterSelection) (r : AccuracyRecord) : Bool :=
  sel.periods.contains r.timePeriod && sel.routes.contains r.routeID

/-- Row predicate of the two `.isin` masks applied to the coverage table
(which still uses the original column name `route`). -/
def selMatchesC (sel : FilterSelection) (r : CoverageRecord) : Bool :=
  sel.periods.contains r.timePeriod && sel.routes.contains r.route

/-- Embeds `df_merged_filtered`: the sentinel-free merged rows restricted to the
selected periods and routes. -/
def df_merged_filtered (acc : List AccuracyRecord) (cov : List CoverageRecord)
    (sel : FilterSelection) : List MergedRecord :=
  (df_corr_analysis acc cov).filter (selMatchesM sel)

/-- Embeds `df_acc_filtered`: the accuracy rows restricted to the selection. -/
def df_acc_filtered (sel : FilterSelection) (acc : List AccuracyRecord) :
    List AccuracyRecord :=
  acc.filter (selMatchesA sel)

/-- Embeds `df_cov_filtered`: the coverage rows restricted to the selection. -/
def df_cov_filtered (sel : FilterSelection) (cov : List CoverageRecord) :
    List CoverageRecord :=
  cov.filter (selMatchesC sel)

/-- Embeds `Series.unique()`: distinct values in first-seen order (`seen` accumulates
the values already emitted). -/
def uniqueAux (seen : List String) : List String → List String
  | [] => []
  | x :: xs => if x ∈ seen then uniqueAux seen xs else x :: uniqueAux (x :: seen) xs

/-- Embeds `Series.unique()` on a column, starting from nothing seen. -/
def uniqueList (l : List String) : List String :=
  uniqueAux [] l

/-- Embeds `unique_periods = df_merged['timePeriod'].unique()`. -/
def unique_periods (acc : List AccuracyRecord) (cov : List CoverageRecord) : List String :=
  uniqueList ((load_data acc cov).map (·.timePeriod))

/-- Insert into a list whose earlier elements the comparator already accepts
before `a` (insertion step of the sorts used below; `ok x y = true` means
`x` may come before `y`). -/
def insertSorted (ok : α → α → Bool) (a : α) : List α → List α
  | [] => [a]
  | b :: bs => if ok a b then a :: b :: bs else b :: insertSorted ok a bs

/-- Comparison sort by insertion, used to embed Python `sorted` and pandas
`sort_values` (any correct comparison sort; tie order is not relied on). -/
def sortBy (ok : α → α → Bool) : List α → List α
  | [] => []
  | a :: as => insertSorted ok a (sortBy ok as)

/-- Lexicographic comparison of character lists by code point, the order in
which Python compares strings. -/
def lexLe : List Char → List Char → Bool
  | [], _ => true
  | _ :: _, [] => false
  | x :: xs, y :: ys => if x < y then true else if y < x then false else lexLe xs ys

/-- String comparison used by Python `sorted` and the pandas group-key sort. -/
def strLe (a b : String) : Bool := lexLe a.data b.data

/-- Embeds `unique_routes = sorted(df_merged['routeID'].unique())`. -/
def unique_routes (acc : List AccuracyRecord) (cov : List CoverageRecord) : List String :=
  sortBy strLe (uniqueList ((load_data acc cov).map (·.routeID)))

/-- The (x, y) pairs `Series.corr` actually uses: pandas drops, pairwise, the
rows where either series is missing (`NaN`). -/
def corrPairs (rows : List MergedRecord) : List (ℚ × ℚ) :=
  rows.filterMap (fun r =>
    match r.fractionTrackedExplained, r.accurate_pct with
    | some x, some y => some (x, y)
    | _, _ => none)

/-- Pearson correlation of a list of pairs, as
`df_merged_filtered['fractionTrackedExplained'].corr(df_merged_filtered['accurate_pct'])`
computes it: `none` embeds the `NaN` that pandas returns with fewer than two
pairs or with a zero-variance series; otherwise the coefficient
`cov(x,y) / sqrt(var(x) * var(y))`. -/
noncomputable def pearson (ps : List (ℚ × ℚ)) : Option ℝ :=
  if ps.length < 2 then none
  else
    let n : ℚ := ps.length
    let sx := (ps.map Prod.fst).sum
    let sy := (ps.map Prod.snd).sum
    let sxx := (ps.map (fun p => p.1 * p.1)).sum
    let syy := (ps.map (fun p => p.2 * p.2)).sum
    let sxy := (ps.map (fun p => p.1 * p.2)).sum
    let varx := sxx - sx * sx / n
    let vary := syy - sy * sy / n
    let cxy := sxy - sx * sy / n
    if varx = 0 ∨ vary = 0 then none
    else some ((cxy : ℝ) / Real.sqrt ((varx : ℝ) * (vary : ℝ)))

/-- The scalar `correlation` of tab 1 (line 120 of `app.py`). -/
noncomputable def correlationValue (acc : List AccuracyRecord) (cov : List CoverageRecord)
    (sel : FilterSelection) : Option ℝ :=
  pearson (corrPairs (df_merged_filtered acc cov sel))

/-- The four qualitative messages of the `if/elif` chain at lines 124-131. -/
inductive CorrBand where
  | strongPositive
  | moderatePositive
  | negativeUnexpected
  | noClear
  deriving Repr, DecidableEq

/-- The banding chain applied to a numeric correlation value. -/
noncomputable def bandOf (v : ℝ) : CorrBand :=
  if v > 0.5 then .strongPositive
  else if v > 0.2 then .moderatePositive
  else if v < -0.2 then .negativeUnexpected
  else .noClear

/-- The banding chain applied to the float `correlation`: every comparison
with `NaN` is false in Python, so a `NaN` correlation falls through to the
final `else` branch. -/
noncomputable def bandOfOpt : Option ℝ → CorrBand
  | none => .noClear
  | some v => bandOf v

/-- What the correlation column of tab 1 renders: either the
no-data warning (line 133), or the `st.metric` number (a missing value here is
the float `NaN`, shown by the format string as text, not suppressed) together
with the banding message. -/
inductive Tab1Corr where
  | noData
  | metric (v : Option ℝ) (b : CorrBand)

/-- Tab 1 correlation rendering, lines 118-133: the numeric path is guarded
only by `df_merged_filtered` being nonempty. -/
noncomputable def tab1Render (acc : List AccuracyRecord) (cov : List CoverageRecord)
    (sel : FilterSelection) : Tab1Corr :=
  if df_merged_filtered acc cov sel = [] then .noData
  else .metric (correlationValue acc cov sel) (bandOfOpt (correlationValue acc cov sel))

/-- The table rendered as "Données Fusionnées" in tab 4 (line 247):
`st.dataframe(df_merged_filtered)`. -/
def tab4MergedDisplay (acc : List AccuracyRecord) (cov : List CoverageRecord)
    (sel : FilterSelection) : List MergedRecord :=
  df_merged_filtered acc cov sel

/-- Column mean as pandas computes it (`skipna=True`): mean of the present
values, `NaN` when none is present. -/
def meanOpt (vs : List (Option ℚ)) : Option ℚ :=
  let present := vs.filterMap id
  match present with
  | [] => none
  | _ => some (present.sum / present.length)

/-- Sort key used by `sort_values(ascending=False)`: missing means (`NaN`)
sort last in a descending sort, i.e. below every number. -/
def optKey (o : Option ℚ) : WithBot ℚ :=
  match o with
  | none => ⊥
  | some q => (q : WithBot ℚ)

/-- Comparator of `sort_values(by=value, ascending=False)` on (key, mean)
rows: row `p` may precede row `q` when `q`'s mean is at most `p`'s, a missing
mean (`NaN`) sorting below every number (pandas puts `NaN` last). -/
def descByMean (p q : String × Option ℚ) : Bool :=
  match p.2, q.2 with
  | _, none => true
  | none, some _ => false
  | some x, some y => decide (y ≤ x)

/-- Keys of `groupby(key)`: pandas emits the distinct keys sorted
ascending (`sort=True` default). -/
def groupKeys (keys : List String) : List String :=
  sortBy strLe (uniqueList keys)

/-- Tab 2, line 177: `df_acc_filtered.groupby('Time Bucket')[['accurate_pct',
'early_pct', 'late_pct']].mean().reset_index()`. -/
def aggAccByTimeBucket (rows : List AccuracyRecord) :
    List (String × Option ℚ × Option ℚ × Option ℚ) :=
  (groupKeys (rows.map (·.timeBucket))).map (fun k =>
    let grp := rows.filter (fun r => r.timeBucket == k)
    (k, meanOpt (grp.map (·.accurate_pct)), meanOpt (grp.map (·.early_pct)),
      meanOpt (grp.map (·.late_pct))))

/-- Tab 2, line 191: `df_acc_filtered.groupby('routeID')['accurate_pct'].mean()
.reset_index().sort_values(by='accurate_pct', ascending=False)`. -/
def aggAccByRoute (rows : List AccuracyRecord) : List (String × Option ℚ) :=
  sortBy descByMean
    ((groupKeys (rows.map (·.routeID))).map (fun k =>
      (k, meanOpt ((rows.filter (fun r => r.routeID == k)).map (·.accurate_pct)))))

/-- Tab 3, line 214: `df_cov_filtered.groupby('timePeriod')
['fractionTrackedExplained'].mean().reset_index()`. -/
def aggCovByPeriod (rows : List CoverageRecord) : List (String × Option ℚ) :=
  (groupKeys (rows.map (·.timePeriod))).map (fun k =>
    (k, meanOpt ((rows.filter (fun r => r.timePeriod == k)).map
      (·.fractionTrackedExplained))))

/-- Tab 3, line 227: `df_cov_filtered.groupby('route')
['fractionTrackedExplained'].mean().reset_index()
.sort_values(by='fractionTrackedExplained', ascending=False)`. -/
def aggCovByRoute (rows : List CoverageRecord) : List (String × Option ℚ) :=
  sortBy descByMean
    ((groupKeys (rows.map (·.route))).map (fun k =>
      (k, meanOpt ((rows.filter (fun r => r.route == k)).map
        (·.fractionTrackedExplained)))))

/-! ### Helper lemmas about the embedded operations -/

theorem mem_uniqueAux {x : String} {l : List String} : ∀ {seen : List String},
    x ∈ uniqueAux seen l ↔ x ∈ l ∧ x ∉ seen := by
  induction l with
  | nil => intro seen; simp [uniqueAux]
  | cons y ys ih =>
    intro seen
    by_cases hy : y ∈ seen
    · rw [uniqueAux, if_pos hy, ih]
      constructor
      · rintro ⟨h1, h2⟩
        exact ⟨List.mem_cons_of_mem _ h1, h2⟩
      · rintro ⟨h1, h2⟩
        rcases List.mem_cons.mp h1 with rfl | h1
        · exact absurd hy h2
        · exact ⟨h1, h2⟩
    · rw [uniqueAux, if_neg hy, List.mem_cons, ih]
      constructor
      · rintro (rfl | ⟨h1, h2⟩)
        · exact ⟨List.mem_cons_self _ _, hy⟩
        · refine ⟨List.mem_cons_of_mem _ h1, fun hx => h2 (List.mem_cons_of_mem _ hx)⟩
      · rintro ⟨h1, h2⟩
        by_cases hxy : x = y
        · exact Or.inl hxy
        · rcases List.mem_cons.mp h1 with rfl | h1
          · exact absurd rfl hxy
          · refine Or.inr ⟨h1, fun hx => ?_⟩
            rcases List.mem_cons.mp hx with h | hx
            · exact hxy h
            · exact h2 hx

theorem mem_uniqueList {x : String} {l : List String} : x ∈ uniqueList l ↔ x ∈ l := by
  rw [uniqueList, mem_uniqueAux]
  simp

theorem insertSorted_perm (ok : α → α → Bool) (a : α) (l : List α) :
    (insertSorted ok a l).Perm (a :: l) := by
  induction l with
  | nil => exact List.Perm.refl _
  | cons b bs ih =>
    rw [insertSorted]
    by_cases h : ok a b = true
    · rw [if_pos h]
    · rw [if_neg h]
      exact (ih.cons b).trans (List.Perm.swap a b bs)

theorem sortBy_perm (ok : α → α → Bool) (l : List α) : (sortBy ok l).Perm l := by
  induction l with
  | nil => exact List.Perm.refl _
  | cons a as ih =>
    rw [sortBy]
    exact (insertSorted_perm ok a _).trans (ih.cons a)

theorem mem_sortBy {ok : α → α → Bool} {l : List α} {x : α} :
    x ∈ sortBy ok l ↔ x ∈ l :=
  (sortBy_perm ok l).mem_iff

theorem pairwise_insertSorted {ok : α → α → Bool}
    (htot : ∀ x y, ok x y = true ∨ ok y x = true)
    (htr : ∀ x y z, ok x y = true → ok y z = true → ok x z = true)
    (a : α) {l : List α} (hl : l.Pairwise (fun x y => ok x y = true)) :
    (insertSorted ok a l).Pairwise (fun x y => ok x y = true) := by
  induction l with
  | nil => simp [insertSorted]
  | cons b bs ih =>
    rw [insertSorted]
    rcases List.pairwise_cons.mp hl with ⟨hb, hbs⟩
    by_cases h : ok a b = true
    · rw [if_pos h]
      refine List.pairwise_cons.mpr ⟨?_, hl⟩
      intro x hx
      rcases List.mem_cons.mp hx with rfl | hx
      · exact h
      · exact htr a b x h (hb x hx)
    · rw [if_neg h]
      refine List.pairwise_cons.mpr ⟨?_, ih hbs⟩
      intro x hx
      have hx2 := (insertSorted_perm ok a bs).mem_iff.mp hx
      rcases List.mem_cons.mp hx2 with rfl | hx2
      · exact (htot x b).resolve_left h
      · exact hb x hx2

theorem pairwise_sortBy {ok : α → α → Bool}
    (htot : ∀ x y, ok x y = true ∨ ok y x = true)
    (htr : ∀ x y z, ok x y = true → ok y z = true → ok x z = true)
    (l : List α) : (sortBy ok l).Pairwise (fun x y => ok x y = true) := by
  induction l with
  | nil => simp [sortBy]
  | cons a as ih =>
    rw [sortBy]
    exact pairwise_insertSorted htot htr a ih

theorem mem_mergeOne {a : AccuracyRecord} {cov : List CoverageRecord} {r : MergedRecord} :
    r ∈ mergeOne a cov ↔
      (covMatches a cov = [] ∧ r = joinRow a none) ∨
      ∃ c ∈ covMatches a cov, r = joinRow a (some c) := by
  unfold mergeOne
  cases h : covMatches a cov with
  | nil => simp
  | cons c cs =>
    rw [List.mem_map]
    constructor
    · rintro ⟨c1, hc1, rfl⟩
      exact Or.inr ⟨c1, hc1, rfl⟩
    · rintro (⟨hf, _⟩ | ⟨c1, hc1, rfl⟩)
      · exact absurd hf (List.cons_ne_nil c cs)
      · exact ⟨c1, hc1, rfl⟩

theorem mergeOne_ne_nil (a : AccuracyRecord) (cov : List CoverageRecord) :
    mergeOne a cov ≠ [] := by
  unfold mergeOne
  cases h : covMatches a cov <;> simp

theorem mergeOne_fields {a : AccuracyRecord} {cov : List CoverageRecord} {r : MergedRecord}
    (h : r ∈ mergeOne a cov) :
    r.routeID = a.routeID ∧ r.timePeriod = a.timePeriod := by
  rcases mem_mergeOne.mp h with ⟨_, rfl⟩ | ⟨c, _, rfl⟩ <;> exact ⟨rfl, rfl⟩

theorem mem_pdMerge {acc : List AccuracyRecord} {cov : List CoverageRecord}
    {r : MergedRecord} :
    r ∈ pdMerge acc cov ↔ ∃ a ∈ acc, r ∈ mergeOne a cov := by
  induction acc with
  | nil => simp [pdMerge]
  | cons a as ih => simp [pdMerge, List.mem_append, ih]

theorem mem_load_data {acc : List AccuracyRecord} {cov : List CoverageRecord}
    {r : MergedRecord} :
    r ∈ load_data acc cov ↔ ∃ a ∈ acc, ∃ m ∈ mergeOne a cov, r = fillSentinel m := by
  simp only [load_data, List.mem_map, mem_pdMerge]
  constructor
  · rintro ⟨m, ⟨a, ha, hm⟩, rfl⟩
    exact ⟨a, ha, m, hm, rfl⟩
  · rintro ⟨a, ha, m, hm, rfl⟩
    exact ⟨m, ⟨a, ha, hm⟩, rfl⟩

theorem load_data_key {acc : List AccuracyRecord} {cov : List CoverageRecord}
    {r : MergedRecord} (h : r ∈ load_data acc cov) :
    ∃ a ∈ acc, r.routeID = a.routeID ∧ r.timePeriod = a.timePeriod := by
  obtain ⟨a, ha, m, hm, rfl⟩ := mem_load_data.mp h
  obtain ⟨h1, h2⟩ := mergeOne_fields hm
  exact ⟨a, ha, h1, h2⟩

theorem sentinel_of_unmatched {acc : List AccuracyRecord} {cov : List CoverageRecord}
    {r : MergedRecord} (hr : r ∈ load_data acc cov)
    (hnm : covKeyMatches r.routeID r.timePeriod cov = []) :
    r.fractionTrackedExplained = some (-1) ∧ r.fractionOnFullyMissingTrips = none := by
  obtain ⟨a, ha, m, hm, rfl⟩ := mem_load_data.mp hr
  obtain ⟨h1, h2⟩ := mergeOne_fields hm
  have hma : covMatches a cov = [] := by
    rw [covMatches, ← h1, ← h2]
    exact hnm
  rcases mem_mergeOne.mp hm with ⟨_, rfl⟩ | ⟨c, hc, rfl⟩
  · exact ⟨rfl, rfl⟩
  · rw [hma] at hc
    exact absurd hc (List.not_mem_nil c)

theorem length_covKeyMatches_le_one {cov : List CoverageRecord}
    (h : (cov.map fun c => (c.route, c.timePeriod)).Nodup) (rid tp : String) :
    (covKeyMatches rid tp cov).length ≤ 1 := by
  induction cov with
  | nil => simp [covKeyMatches]
  | cons c cs ih =>
    rw [List.map_cons, List.nodup_cons] at h
    obtain ⟨hc, hcs⟩ := h
    by_cases hp : (c.route == rid && c.timePeriod == tp) = true
    · rw [covKeyMatches, List.filter_cons, if_pos hp]
      rw [Bool.and_eq_true] at hp
      obtain ⟨hpr, hpt⟩ := hp
      have hnil : List.filter (fun d => d.route == rid && d.timePeriod == tp) cs = [] := by
        rw [List.filter_eq_nil_iff]
        intro d hd hdp
        rw [Bool.and_eq_true] at hdp
        obtain ⟨hdr, hdt⟩ := hdp
        apply hc
        have : (c.route, c.timePeriod) = (d.route, d.timePeriod) := by
          rw [eq_of_beq hpr, eq_of_beq hpt, eq_of_beq hdr, eq_of_beq hdt]
        rw [this]
        exact List.mem_map_of_mem _ hd
      rw [hnil]
      simp
    · rw [covKeyMatches, List.filter_cons, if_neg hp]
      exact ih hcs

theorem length_mergeOne {a : AccuracyRecord} {cov : List CoverageRecord}
    (h : (covMatches a cov).length ≤ 1) :
    (mergeOne a cov).length = 1 := by
  unfold mergeOne
  cases hm : covMatches a cov with
  | nil => rfl
  | cons c cs =>
    rw [hm] at h
    cases cs with
    | nil => rfl
    | cons d ds => simp at h

theorem length_pdMerge {acc : List AccuracyRecord} {cov : List CoverageRecord}
    (h : (cov.map fun c => (c.route, c.timePeriod)).Nodup) :
    (pdMerge acc cov).length = acc.length := by
  induction acc with
  | nil => rfl
  | cons a as ih =>
    have h1 : (mergeOne a cov).length = 1 :=
      length_mergeOne (length_covKeyMatches_le_one h a.routeID a.timePeriod)
    rw [pdMerge, List.length_append, ih, h1, List.length_cons]
    omega

theorem exists_mem_load_data (acc : List AccuracyRecord) (cov : List CoverageRecord)
    {a : AccuracyRecord} (ha : a ∈ acc) :
    ∃ r ∈ load_data acc cov, r.routeID = a.routeID ∧ r.timePeriod = a.timePeriod := by
  obtain ⟨m, hm⟩ : ∃ m, m ∈ mergeOne a cov := by
    cases h : mergeOne a cov with
    | nil => exact absurd h (mergeOne_ne_nil a cov)
    | cons x xs => exact ⟨x, List.mem_cons_self x xs⟩
  obtain ⟨h1, h2⟩ := mergeOne_fields hm
  exact ⟨fillSentinel m, mem_load_data.mpr ⟨a, ha, m, hm, rfl⟩, h1, h2⟩

theorem contains_iff_mem {l : List String} {x : String} : l.contains x = true ↔ x ∈ l :=
  ⟨List.mem_of_elem_eq_true, List.elem_eq_true_of_mem⟩

theorem corrPairs_eq (rows : List MergedRecord) :
    corrPairs rows =
      (rows.filter (fun r =>
          r.fractionTrackedExplained.isSome && r.accurate_pct.isSome)).map
        (fun r => (r.fractionTrackedExplained.getD 0, r.accurate_pct.getD 0)) := by
  induction rows with
  | nil => rfl
  | cons r rs ih =>
    have ih2 := ih
    rw [corrPairs] at ih2
    cases hx : r.fractionTrackedExplained <;> cases hy : r.accurate_pct <;>
      simp [corrPairs, List.filterMap_cons, List.filter_cons, hx, hy, ih2]

/-! ### Concrete example tables used by witnesses and counterexamples -/

/-- Accuracy row with a matching coverage row (`covA`). -/
def accA : AccuracyRecord := ⟨"10", "AM", "0-5", some 8, some 1, some 1, some 100⟩

/-- Accuracy row with no matching coverage row. -/
def accB : AccuracyRecord := ⟨"20", "PM", "5-10", some 7, some 2, some 1, some 50⟩

/-- Coverage row matching `accA`'s (routeID, timePeriod) key. -/
def covA : CoverageRecord := ⟨"10", "AM", some 9, some 1⟩

/-- Coverage row whose route occurs in no accuracy row. -/
def covX : CoverageRecord := ⟨"99", "AM", some 5, none⟩

/-! ### The claims -/

/-- C1: when the coverage table's (route, timePeriod) key pairs are unique,
the left merge produces exactly one output row per accuracy row, so the
merged row count equals the accuracy row count: no accuracy row is dropped
or duplicated. -/
theorem C1_merge_row_count (acc : List AccuracyRecord) (cov : List CoverageRecord)
    (h : (cov.map fun c => (c.route, c.timePeriod)).Nodup) :
    (load_data acc cov).length = acc.length := by
  rw [load_data, List.length_map]
  exact length_pdMerge h

theorem C1_merge_row_count_witness :
    (([covA, covX].map fun c => (c.route, c.timePeriod)).Nodup) ∧
    (load_data [accA, accB] [covA, covX]).length = [accA, accB].length :=
  ⟨by decide, C1_merge_row_count [accA, accB] [covA, covX] (by decide)⟩

/-- Stated in the words of the spec (§4.3), for comparison with the code's
pipeline: the merged rows with `fractionTrackedExplained != -1` that satisfy
the active filter selection, restricted to pairwise-complete rows (no missing
value in either correlated field), projected to the two correlated columns. -/
def corrInputSpec (acc : List AccuracyRecord) (cov : List CoverageRecord)
    (sel : FilterSelection) : List (ℚ × ℚ) :=
  ((load_data acc cov).filter (fun r =>
      decide (r.fractionTrackedExplained ≠ some (-1)) && selMatchesM sel r &&
        (r.fractionTrackedExplained.isSome && r.accurate_pct.isSome))).map
    (fun r => (r.fractionTrackedExplained.getD 0, r.accurate_pct.getD 0))

/-- C2: the correlation the app computes is the Pearson coefficient over
exactly the merged rows that pass the sentinel test and the active filter
selection, using pairwise-complete rows. -/
theorem C2_correlation_input (acc : List AccuracyRecord) (cov : List CoverageRecord)
    (sel : FilterSelection) :
    correlationValue acc cov sel = pearson (corrInputSpec acc cov sel) := by
  rw [correlationValue, corrInputSpec]
  congr 1
  rw [df_merged_filtered, df_corr_analysis, corrPairs_eq,
    List.filter_filter, List.filter_filter]
  congr 1
  apply List.filter_congr
  intro r _
  cases hs : decide (r.fractionTrackedExplained ≠ some (-1)) <;>
    cases hm : selMatchesM sel r <;>
    cases h1 : r.fractionTrackedExplained.isSome <;>
    cases h2 : r.accurate_pct.isSome <;>
    simp [hs, hm, h1, h2]

/-- C3: the qualitative banding chain evaluates its ranges in order, first
match winning: above 0.5 strong positive, in (0.2, 0.5] moderate positive,
below -0.2 negative (unexpected), and in [-0.2, 0.2] no clear correlation. -/
theorem C3_banding (v : ℝ) :
    (0.5 < v → bandOf v = CorrBand.strongPositive) ∧
    (0.2 < v ∧ v ≤ 0.5 → bandOf v = CorrBand.moderatePositive) ∧
    (v < -0.2 → bandOf v = CorrBand.negativeUnexpected) ∧
    (-0.2 ≤ v ∧ v ≤ 0.2 → bandOf v = CorrBand.noClear) := by
  refine ⟨fun h => ?_, fun h => ?_, fun h => ?_, fun h => ?_⟩ <;> rw [bandOf]
  · rw [if_pos h]
  · rw [if_neg (by push_neg; linarith [h.2]), if_pos h.1]
  · rw [if_neg (by push_neg; nlinarith), if_neg (by push_neg; nlinarith), if_pos h]
  · rw [if_neg (by push_neg; linarith [h.2]), if_neg (by push_neg; exact h.2),
      if_neg (by push_neg; exact h.1)]

theorem C3_banding_witness :
    bandOf 0.6 = CorrBand.strongPositive ∧ bandOf 0.3 = CorrBand.moderatePositive ∧
    bandOf (-0.3) = CorrBand.negativeUnexpected ∧ bandOf 0.1 = CorrBand.noClear :=
  ⟨(C3_banding 0.6).1 (by norm_num),
   (C3_banding 0.3).2.1 ⟨by norm_num, by norm_num⟩,
   (C3_banding (-0.3)).2.2.1 (by norm_num),
   (C3_banding 0.1).2.2.2 ⟨by norm_num, by norm_num⟩⟩

/-- The full (default-style) selection over the distinct values of the merged
table built from `[accB]` and an empty coverage table. -/
def selB : FilterSelection := ⟨["PM"], ["20"]⟩

/-- C4 counterexample: with one accuracy row and no coverage data, the merged
table consists of exactly one sentinel row, the full selection keeps that
row's period and route, and yet the merged table rendered in tab 4 is empty:
the sentinel row is not retained in the displayed merged table. -/
theorem C4_counterexample :
    selB = ⟨unique_periods [accB] [], unique_routes [accB] []⟩ ∧
    (load_data [accB] []).map (·.fractionTrackedExplained) = [some (-1)] ∧
    selMatchesM selB (fillSentinel (joinRow accB none)) = true ∧
    tab4MergedDisplay [accB] [] selB = [] := by decide

/-- C4 (amended): a merged row with no matching coverage entry carries the
sentinel `-1` and is excluded from the correlation input, but it is retained
only in `df_merged` itself: the merged table produced for display in tab 4 is
the sentinel-filtered, selection-filtered table, which never contains it. -/
theorem C4_sentinel_row_display (acc : List AccuracyRecord) (cov : List CoverageRecord)
    (sel : FilterSelection) (r : MergedRecord) (hr : r ∈ load_data acc cov)
    (hnm : covKeyMatches r.routeID r.timePeriod cov = []) :
    r.fractionTrackedExplained = some (-1) ∧
    r ∉ df_corr_analysis acc cov ∧
    r ∉ df_merged_filtered acc cov sel ∧
    r ∉ tab4MergedDisplay acc cov sel := by
  have hs := (sentinel_of_unmatched hr hnm).1
  have hca : r ∉ df_corr_analysis acc cov := by
    intro hmem
    have := List.of_mem_filter hmem
    rw [hs] at this
    simp at this
  have hmf : r ∉ df_merged_filtered acc cov sel := by
    intro hmem
    exact hca (List.mem_of_mem_filter hmem)
  exact ⟨hs, hca, hmf, hmf⟩

theorem C4_sentinel_row_display_witness :
    (fillSentinel (joinRow accB none)).fractionTrackedExplained = some (-1) ∧
    fillSentinel (joinRow accB none) ∉ df_corr_analysis [accA, accB] [covA] ∧
    fillSentinel (joinRow accB none) ∉ df_merged_filtered [accA, accB] [covA] selB ∧
    fillSentinel (joinRow accB none) ∉ tab4MergedDisplay [accA, accB] [covA] selB :=
  C4_sentinel_row_display [accA, accB] [covA] selB (fillSentinel (joinRow accB none))
    (by decide) (by decide)

/-- The full selection over the distinct values of the merged table built
from `[accA]` and `[covA]`. -/
def sel1 : FilterSelection := ⟨["AM"], ["10"]⟩

/-- C5 counterexample: with exactly one contributing row, the code takes the
numeric path and renders the undefined (`NaN`) correlation through the metric
widget — a silent `NaN`, not the distinct no-data signal. -/
theorem C5_counterexample :
    (corrPairs (df_merged_filtered [accA] [covA] sel1)).length = 1 ∧
    tab1Render [accA] [covA] sel1 = Tab1Corr.metric none CorrBand.noClear ∧
    tab1Render [accA] [covA] sel1 ≠ Tab1Corr.noData := by
  have hpairs : corrPairs (df_merged_filtered [accA] [covA] sel1) = [((9 : ℚ), 8)] := by
    decide
  have hc : correlationValue [accA] [covA] sel1 = none := by
    rw [correlationValue, hpairs, pearson]
    norm_num
  have hne : df_merged_filtered [accA] [covA] sel1 ≠ [] := by decide
  refine ⟨by rw [hpairs]; rfl, ?_, ?_⟩
  · rw [tab1Render, if_neg hne, hc]
    rfl
  · rw [tab1Render, if_neg hne, hc]
    exact fun h => nomatch h

/-- C5 (amended): an empty filtered table is signaled with the distinct
no-data message and no numeric value; with at most one contributing pair the
correlation itself is undefined (the `NaN` embedded as `none`, never numeric
0); but any nonempty filtered table — including the one-row case — goes down
the numeric metric path. -/
theorem C5_undefined_signal (acc : List AccuracyRecord) (cov : List CoverageRecord)
    (sel : FilterSelection) :
    (df_merged_filtered acc cov sel = [] → tab1Render acc cov sel = Tab1Corr.noData) ∧
    ((corrPairs (df_merged_filtered acc cov sel)).length ≤ 1 →
      correlationValue acc cov sel = none) ∧
    (df_merged_filtered acc cov sel ≠ [] →
      tab1Render acc cov sel =
        Tab1Corr.metric (correlationValue acc cov sel)
          (bandOfOpt (correlationValue acc cov sel))) := by
  refine ⟨fun h => ?_, fun h => ?_, fun h => ?_⟩
  · rw [tab1Render, if_pos h]
  · rw [correlationValue, pearson, if_pos (by omega)]
  · rw [tab1Render, if_neg h]

theorem C5_undefined_signal_witness :
    tab1Render [accA] [covA] ⟨[], []⟩ = Tab1Corr.noData ∧
    correlationValue [accA] [covA] ⟨[], []⟩ = none :=
  ⟨(C5_undefined_signal [accA] [covA] ⟨[], []⟩).1 (by decide),
   (C5_undefined_signal [accA] [covA] ⟨[], []⟩).2.1 (by decide)⟩

/-- C6: in the merge output, an accuracy row with no coverage match gets
exactly `-1` in `fractionTrackedExplained`, while
`fractionOnFullyMissingTrips` is left as a missing value — the asymmetry of
the single-column `fillna`. -/
theorem C6_unmatched_asymmetry (acc : List AccuracyRecord) (cov : List CoverageRecord)
    (r : MergedRecord) (hr : r ∈ load_data acc cov)
    (hnm : covKeyMatches r.routeID r.timePeriod cov = []) :
    r.fractionTrackedExplained = some (-1) ∧ r.fractionOnFullyMissingTrips = none :=
  sentinel_of_unmatched hr hnm

theorem C6_unmatched_asymmetry_witness :
    (fillSentinel (joinRow accB none)).fractionTrackedExplained = some (-1) ∧
    (fillSentinel (joinRow accB none)).fractionOnFullyMissingTrips = none :=
  C6_unmatched_asymmetry [accA, accB] [covA] (fillSentinel (joinRow accB none))
    (by decide) (by decide)

/-- C7: filtering with the selected-periods set equal to all distinct
timePeriod values and the selected-routes set equal to all distinct route
identifiers is the identity on each table, row-for-row with order preserved
(for the merged pipeline the table being filtered is `df_corr_analysis`, and
the distinct values are the app's `unique_periods` / `unique_routes`). -/
theorem C7_full_filter_identity (acc : List AccuracyRecord) (cov : List CoverageRecord) :
    df_acc_filtered
        ⟨uniqueList (acc.map (·.timePeriod)), uniqueList (acc.map (·.routeID))⟩ acc = acc ∧
    df_cov_filtered
        ⟨uniqueList (cov.map (·.timePeriod)), uniqueList (cov.map (·.route))⟩ cov = cov ∧
    df_merged_filtered acc cov ⟨unique_periods acc cov, unique_routes acc cov⟩ =
      df_corr_analysis acc cov := by
  refine ⟨?_, ?_, ?_⟩
  · rw [df_acc_filtered, List.filter_eq_self]
    intro r hr
    rw [selMatchesA, Bool.and_eq_true]
    exact ⟨contains_iff_mem.mpr (mem_uniqueList.mpr (List.mem_map_of_mem _ hr)),
      contains_iff_mem.mpr (mem_uniqueList.mpr (List.mem_map_of_mem _ hr))⟩
  · rw [df_cov_filtered, List.filter_eq_self]
    intro r hr
    rw [selMatchesC, Bool.and_eq_true]
    exact ⟨contains_iff_mem.mpr (mem_uniqueList.mpr (List.mem_map_of_mem _ hr)),
      contains_iff_mem.mpr (mem_uniqueList.mpr (List.mem_map_of_mem _ hr))⟩
  · rw [df_merged_filtered, List.filter_eq_self]
    intro r hr
    have hrm : r ∈ load_data acc cov := List.mem_of_mem_filter hr
    rw [selMatchesM, Bool.and_eq_true]
    refine ⟨contains_iff_mem.mpr ?_, contains_iff_mem.mpr ?_⟩
    · exact mem_uniqueList.mpr (List.mem_map_of_mem _ hrm)
    · exact mem_sortBy.mpr (mem_uniqueList.mpr (List.mem_map_of_mem _ hrm))

/-- C8: a selection matching no rows filters every table to empty, and each
of the four aggregation views of an empty input table is empty (no failure:
the views are total functions). -/
theorem C8_empty_filter_views (acc : List AccuracyRecord) (cov : List CoverageRecord)
    (sel : FilterSelection)
    (ha : ∀ r ∈ acc, ¬(r.timePeriod ∈ sel.periods ∧ r.routeID ∈ sel.routes))
    (hc : ∀ c ∈ cov, ¬(c.timePeriod ∈ sel.periods ∧ c.route ∈ sel.routes)) :
    df_acc_filtered sel acc = [] ∧
    df_cov_filtered sel cov = [] ∧
    df_merged_filtered acc cov sel = [] ∧
    aggAccByTimeBucket (df_acc_filtered sel acc) = [] ∧
    aggAccByRoute (df_acc_filtered sel acc) = [] ∧
    aggCovByPeriod (df_cov_filtered sel cov) = [] ∧
    aggCovByRoute (df_cov_filtered sel cov) = [] := by
  have hA : df_acc_filtered sel acc = [] := by
    rw [df_acc_filtered, List.filter_eq_nil_iff]
    intro r hr hsel
    rw [selMatchesA, Bool.and_eq_true] at hsel
    exact ha r hr ⟨contains_iff_mem.mp hsel.1, contains_iff_mem.mp hsel.2⟩
  have hC : df_cov_filtered sel cov = [] := by
    rw [df_cov_filtered, List.filter_eq_nil_iff]
    intro c hcm hsel
    rw [selMatchesC, Bool.and_eq_true] at hsel
    exact hc c hcm ⟨contains_iff_mem.mp hsel.1, contains_iff_mem.mp hsel.2⟩
  have hM : df_merged_filtered acc cov sel = [] := by
    rw [df_merged_filtered, List.filter_eq_nil_iff]
    intro r hr hsel
    have hrm : r ∈ load_data acc cov := List.mem_of_mem_filter hr
    obtain ⟨a, haa, h1, h2⟩ := load_data_key hrm
    rw [selMatchesM, Bool.and_eq_true] at hsel
    refine ha a haa ⟨?_, ?_⟩
    · rw [← h2]
      exact contains_iff_mem.mp hsel.1
    · rw [← h1]
      exact contains_iff_mem.mp hsel.2
  exact ⟨hA, hC, hM, by rw [hA]; rfl, by rw [hA]; rfl, by rw [hC]; rfl, by rw [hC]; rfl⟩

theorem C8_empty_filter_views_witness :
    df_acc_filtered ⟨["ZZ"], ["10"]⟩ [accA] = [] ∧
    df_cov_filtered ⟨["ZZ"], ["10"]⟩ [covA] = [] ∧
    df_merged_filtered [accA] [covA] ⟨["ZZ"], ["10"]⟩ = [] ∧
    aggAccByTimeBucket (df_acc_filtered ⟨["ZZ"], ["10"]⟩ [accA]) = [] ∧
    aggAccByRoute (df_acc_filtered ⟨["ZZ"], ["10"]⟩ [accA]) = [] ∧
    aggCovByPeriod (df_cov_filtered ⟨["ZZ"], ["10"]⟩ [covA]) = [] ∧
    aggCovByRoute (df_cov_filtered ⟨["ZZ"], ["10"]⟩ [covA]) = [] :=
  C8_empty_filter_views [accA] [covA] ⟨["ZZ"], ["10"]⟩ (by decide) (by decide)

/-- Accuracy table realizing the spec's example: per-route mean accuracies
A: 0.7, B: 0.9, C: 0.5. -/
def exC9 : List AccuracyRecord :=
  [⟨"A", "AM", "0-5", some 0.7, none, none, none⟩,
   ⟨"B", "AM", "0-5", some 0.9, none, none, none⟩,
   ⟨"C", "AM", "0-5", some 0.5, none, none, none⟩]

/-- C9: the accuracy-by-route view has one row per distinct routeID, each
carrying the group mean of `accurate_pct`, ordered descending by that mean;
on the spec's example table the route order is B, A, C. -/
theorem C9_route_view (rows : List AccuracyRecord) :
    ((aggAccByRoute rows).map Prod.fst).Perm (uniqueList (rows.map (·.routeID))) ∧
    (∀ p ∈ aggAccByRoute rows,
      p.2 = meanOpt ((rows.filter (fun r => r.routeID == p.1)).map (·.accurate_pct))) ∧
    (aggAccByRoute rows).Pairwise (fun p q => optKey q.2 ≤ optKey p.2) ∧
    (aggAccByRoute exC9).map Prod.fst = ["B", "A", "C"] := by
  have htot : ∀ p q : String × Option ℚ, descByMean p q = true ∨ descByMean q p = true := by
    intro p q
    rcases p with ⟨kp, _ | xp⟩ <;> rcases q with ⟨kq, _ | xq⟩ <;> simp [descByMean]
    exact le_total xq xp
  have htr : ∀ p q s : String × Option ℚ, descByMean p q = true → descByMean q s = true →
      descByMean p s = true := by
    intro p q s
    rcases p with ⟨kp, _ | xp⟩ <;> rcases q with ⟨kq, _ | xq⟩ <;> rcases s with ⟨ks, _ | xs⟩ <;>
      simp [descByMean]
    exact fun h1 h2 => le_trans h2 h1
  refine ⟨?_, ?_, ?_, ?_⟩
  · rw [aggAccByRoute]
    refine ((sortBy_perm _ _).map Prod.fst).trans ?_
    rw [List.map_map]
    have : (Prod.fst ∘ fun k =>
        (k, meanOpt ((rows.filter (fun r => r.routeID == k)).map (·.accurate_pct)))) = id := by
      funext k
      rfl
    rw [this, List.map_id, groupKeys]
    exact sortBy_perm _ _
  · intro p hp
    rw [aggAccByRoute, mem_sortBy] at hp
    obtain ⟨k, _, rfl⟩ := List.mem_map.mp hp
    rfl
  · rw [aggAccByRoute]
    refine (pairwise_sortBy htot htr _).imp ?_
    intro p q h
    rcases p with ⟨kp, _ | xp⟩ <;> rcases q with ⟨kq, _ | xq⟩ <;>
      simp [descByMean, optKey] at h ⊢
    · exact h
  · have hA : meanOpt ((exC9.filter (fun r => r.routeID == "A")).map (·.accurate_pct)) =
        some 0.7 := by
      have h1 : (exC9.filter (fun r => r.routeID == "A")).map (·.accurate_pct) =
          [some 0.7] := by simp [exC9]
      rw [h1, meanOpt]
      norm_num [List.filterMap_cons, List.filterMap_nil, List.sum_cons, List.sum_nil]
    have hB : meanOpt ((exC9.filter (fun r => r.routeID == "B")).map (·.accurate_pct)) =
        some 0.9 := by
      have h1 : (exC9.filter (fun r => r.routeID == "B")).map (·.accurate_pct) =
          [some 0.9] := by simp [exC9]
      rw [h1, meanOpt]
      norm_num [List.filterMap_cons, List.filterMap_nil, List.sum_cons, List.sum_nil]
    have hC : meanOpt ((exC9.filter (fun r => r.routeID == "C")).map (·.accurate_pct)) =
        some 0.5 := by
      have h1 : (exC9.filter (fun r => r.routeID == "C")).map (·.accurate_pct) =
          [some 0.5] := by simp [exC9]
      rw [h1, meanOpt]
      norm_num [List.filterMap_cons, List.filterMap_nil, List.sum_cons, List.sum_nil]
    have hkeys : groupKeys (exC9.map (·.routeID)) = ["A", "B", "C"] := by decide
    have hagg : aggAccByRoute exC9 =
        sortBy descByMean [("A", some 0.7), ("B", some 0.9), ("C", some 0.5)] := by
      rw [aggAccByRoute, hkeys]
      simp only [List.map_cons, List.map_nil]
      rw [hA, hB, hC]
    rw [hagg]
    norm_num [sortBy, insertSorted, descByMean]

/-- The single row of the accuracy-by-route view of the one-row table
`[accA]`, used to instantiate C9 concretely. -/
def exPair : String × Option ℚ :=
  ("10", meanOpt (([accA].filter (fun r => r.routeID == "10")).map (·.accurate_pct)))

theorem C9_route_view_witness :
    exPair.2 =
      meanOpt (([accA].filter (fun r => r.routeID == exPair.1)).map (·.accurate_pct)) :=
  (C9_route_view [accA]).2.1 exPair (List.mem_singleton.mpr rfl)

/-- C10: the selectable route list is computed from the merged table, whose
routeIDs are exactly the accuracy table's; hence a coverage-only route is
never selectable, and under any selection drawn from the selectable list
every surviving coverage row's route belongs to the accuracy table. -/
theorem C10_selectable_routes (acc : List AccuracyRecord) (cov : List CoverageRecord) :
    (∀ x, x ∈ unique_routes acc cov ↔ x ∈ acc.map (·.routeID)) ∧
    (∀ x, x ∈ cov.map (·.route) → x ∉ acc.map (·.routeID) → x ∉ unique_routes acc cov) ∧
    (∀ sel : FilterSelection, (∀ q ∈ sel.routes, q ∈ unique_routes acc cov) →
      ∀ c ∈ df_cov_filtered sel cov, c.route ∈ acc.map (·.routeID)) := by
  have hmem : ∀ x, x ∈ unique_routes acc cov ↔ x ∈ acc.map (·.routeID) := by
    intro x
    rw [unique_routes, mem_sortBy, mem_uniqueList]
    constructor
    · intro hx
      obtain ⟨r, hr, rfl⟩ := List.mem_map.mp hx
      obtain ⟨a, ha, h1, _⟩ := load_data_key hr
      exact List.mem_map.mpr ⟨a, ha, h1.symm⟩
    · intro hx
      obtain ⟨a, ha, rfl⟩ := List.mem_map.mp hx
      obtain ⟨r, hr, h1, _⟩ := exists_mem_load_data acc cov ha
      exact List.mem_map.mpr ⟨r, hr, h1⟩
  refine ⟨hmem, fun x _ hxa hxu => hxa ((hmem x).mp hxu), ?_⟩
  intro sel hsub c hc
  have h1 : selMatchesC sel c = true := List.of_mem_filter hc
  rw [selMatchesC, Bool.and_eq_true] at h1
  exact (hmem c.route).mp (hsub c.route (contains_iff_mem.mp h1.2))

theorem C10_selectable_routes_witness :
    ("99" ∉ unique_routes [accA, accB] [covA, covX]) ∧
    covA.route ∈ [accA, accB].map (·.routeID) :=
  ⟨(C10_selectable_routes [accA, accB] [covA, covX]).2.1 "99" (by decide) (by decide),
   (C10_selectable_routes [accA, accB] [covA, covX]).2.2 ⟨["AM"], ["10"]⟩ (by decide)
     covA (by decide)⟩

end ETA
